import Mathlib

/-!
Verification of the SSE demo repository (client connection-lifecycle manager,
server stream emitter, consumer widgets) against its natural-language
specification.  Each source function of interest is shallowly embedded as an
executable Lean definition; machine integers are modelled as Nat/Int and the
JavaScript `number` values reached by the code under study are all dyadic
rationals that doubles represent exactly, so ℚ is a faithful carrier.
-/

namespace SSE

/-! ## Client: Connection Lifecycle Manager (hook source file)

The React hook mutates a small set of refs/state from its handlers
(`connect`, `es.onopen`, `es.onerror`, the visibility/online/teardown
listeners).  The event loop is single threaded and each handler runs to
completion, so the manager is embedded as a state machine whose steps are the
handler bodies.  `liveCount` instruments the number of transports that have
been created and not yet closed (`new EventSourceCtor` minus `.close()`
calls); it is bookkeeping the code maintains implicitly through its single
ref. -/

/-- Retry delay computed by `es.onerror`:
`Math.min(30_000, 1000 * Math.pow(2, Math.min(attempt - 1, 5)))`.
`attempt` may be 0 (an error after a successful open reset the counter), in
which case the JS exponent is `-1`; every value involved is exactly
representable as a double, so ℚ arithmetic coincides with the JS
computation. -/
def errorDelay (attempt : ℤ) : ℚ := min 30000 (1000 * (2 : ℚ) ^ (min (attempt - 1) 5))

/-- A transport (EventSource) object: its identity and its `readyState`
(0 = CONNECTING, 1 = OPEN, 2 = CLOSED). -/
structure Transport where
  tid : ℕ
  readyState : ℕ
deriving DecidableEq, Repr

/-- The manager's mutable state: `instanceId` (the generation counter state),
`handle` (the `eventSourceRef`), `attemptCount` (`attemptCountRef`),
`retryDelay` (`retryTimerRef`, recorded as the delay of the pending retry
timer, `none` when no timer is pending), `hiddenAt` (`hiddenAtRef`), and the
`liveCount` instrumentation described above. -/
structure MgrState where
  instanceId : ℕ
  handle : Option Transport
  attemptCount : ℕ
  retryDelay : Option ℚ
  hiddenAt : Option ℕ
  liveCount : ℕ
deriving DecidableEq, Repr

/-- The state at mount, before the initial `connect()` call. -/
def initState : MgrState :=
  { instanceId := 0, handle := none, attemptCount := 0, retryDelay := none,
    hiddenAt := none, liveCount := 0 }

/-- Helper `clearRetryTimer`: cancel the pending retry timer, if any. -/
def clearRetryTimer (s : MgrState) : MgrState := { s with retryDelay := none }

/-- Helper `closeCurrent`: close the current transport (if any) and null the ref. -/
def closeCurrent (s : MgrState) : MgrState :=
  match s.handle with
  | some _ => { s with handle := none, liveCount := s.liveCount - 1 }
  | none => s

/-- The body of `connect()`: close the current transport, cancel any pending
retry, bump the attempt counter, create a fresh transport, publish it to the
ref and increment `instanceId` — all within the same synchronous handler turn
(the source stresses that the ref publication and the `setInstanceId` bump
happen immediately at creation, before `onopen`).  The fresh transport is
identified by the generation value it is created under. -/
def connectStep (s : MgrState) : MgrState :=
  let s1 := clearRetryTimer (closeCurrent s)
  let s2 := { s1 with attemptCount := s1.attemptCount + 1 }
  { s2 with
    handle := some ⟨s2.instanceId + 1, 0⟩,
    liveCount := s2.liveCount + 1,
    instanceId := s2.instanceId + 1 }

/-- Handler `es.onopen`: reset the backoff counter; the transport becomes OPEN.  The
handler only ever fires for the transport currently held by the ref (a closed
transport emits no events).  It does not touch `instanceId`. -/
def openStep (s : MgrState) : MgrState :=
  match s.handle with
  | some t => { s with attemptCount := 0, handle := some { t with readyState := 1 } }
  | none => s

/-- Handler `es.onerror`: close the transport, null the ref, and schedule a retry
after `errorDelay attempt` where `attempt` is the current value of
`attemptCountRef` (read, not modified).  `clearRetryTimer()` then a fresh
`setTimeout` leaves exactly one pending timer.  It does not touch
`instanceId`. -/
def errorStep (s : MgrState) : MgrState :=
  match s.handle with
  | some _ =>
    { s with handle := none, liveCount := s.liveCount - 1,
             retryDelay := some (errorDelay (s.attemptCount : ℤ)) }
  | none => s

/-- Visibility change to `hidden`: record the timestamp, nothing else. -/
def visHiddenStep (now : ℕ) (s : MgrState) : MgrState := { s with hiddenAt := some now }

/-- Visibility change back to `visible`: reconnect immediately when the
transport is missing or CLOSED; otherwise, when the page was hidden longer
than the threshold (or the threshold is 0), discard the transport and
reconnect; otherwise do nothing.  `hiddenAtRef` is read and then cleared in
all cases. -/
def visVisibleStep (threshold now : ℕ) (s : MgrState) : MgrState :=
  let s0 := { s with hiddenAt := none }
  match s.handle with
  | none => connectStep (clearRetryTimer s0)
  | some t =>
    if t.readyState = 2 then connectStep (clearRetryTimer s0)
    else
      match s.hiddenAt with
      | some h0 =>
        if threshold = 0 ∨ now - h0 > threshold then
          connectStep (clearRetryTimer (closeCurrent s0))
        else s0
      | none => s0

/-- The `online` listener: discard the transport and reconnect immediately. -/
def onlineStep (s : MgrState) : MgrState := connectStep (clearRetryTimer (closeCurrent s))

/-- The `pagehide` listener: on a non-persisted teardown, send the beacon (an
external effect, not part of the state) and close the transport. -/
def pageHideStep (persisted : Bool) (s : MgrState) : MgrState :=
  if persisted then s else closeCurrent s

/-- The `beforeunload` listener: send the beacon and close the transport. -/
def beforeUnloadStep (s : MgrState) : MgrState := closeCurrent s

/-- Effect cleanup on unmount: cancel the retry timer and close the
transport. -/
def teardownStep (s : MgrState) : MgrState := closeCurrent (clearRetryTimer s)

/-- The handler invocations that can mutate the manager's state.  `connect`
covers the initial mount call and a retry-timer firing (both run the same
`connect()` body). -/
inductive MgrEvent where
  | connect
  | transportOpen
  | transportError
  | visibilityHidden (now : ℕ)
  | visibilityVisible (now : ℕ)
  | online
  | pageHide (persisted : Bool)
  | beforeUnload
  | teardown
deriving DecidableEq, Repr

/-- One handler execution, parameterised by the configured
`backgroundThresholdMs`. -/
def step (threshold : ℕ) : MgrEvent → MgrState → MgrState
  | .connect => connectStep
  | .transportOpen => openStep
  | .transportError => errorStep
  | .visibilityHidden n => visHiddenStep n
  | .visibilityVisible n => visVisibleStep threshold n
  | .online => onlineStep
  | .pageHide p => pageHideStep p
  | .beforeUnload => beforeUnloadStep
  | .teardown => teardownStep

/-- States reachable from mount by any interleaving of handler runs. -/
inductive Reachable (threshold : ℕ) : MgrState → Prop where
  | init : Reachable threshold initState
  | next : ∀ {s} (e : MgrEvent), Reachable threshold s → Reachable threshold (step threshold e s)

/-- The inductive invariant tying the instrumentation and the generation
counter to the published handle: the number of live transports is exactly 1
when the ref is non-null and 0 otherwise, and a published transport always
carries the current generation. -/
def Inv (s : MgrState) : Prop :=
  (s.liveCount = if s.handle.isSome then 1 else 0) ∧
  (∀ t, s.handle = some t → t.tid = s.instanceId)

/-- One failed connection attempt: `connect()` runs (incrementing
`attemptCountRef`), the transport errors before opening, and `onerror`
schedules the retry. -/
def failCycle (s : MgrState) : MgrState := errorStep (connectStep s)

/-- Iterated: `n` consecutive failed connection attempts. -/
def failIter : ℕ → MgrState → MgrState
  | 0, s => s
  | n + 1, s => failIter n (failCycle s)

/-! ## Server: resume-point parsing (`parseLastEventId`)

The server reads the resume point with `Number(...)` and keeps it only when
`Number.isFinite` holds.  `jsNumber` models the JavaScript `Number(string)`
conversion restricted to the finite results: whitespace-trimmed empty string
is 0, decimal literals (optional sign, optional fraction, optional decimal
exponent) convert to their exact value, `Infinity` variants and everything
else (`NaN` inputs) give `none`. -/

/-- Value of a digit string (most significant first). -/
def natOfDigits (cs : List Char) : ℕ := cs.foldl (fun a c => 10 * a + (c.toNat - 48)) 0

/-- Decimal exponent digits (after an optional sign): nonempty, all digits. -/
def parseExpDigits (ds : List Char) : Option ℤ :=
  if ds ≠ [] ∧ ds.all Char.isDigit then some (natOfDigits ds) else none

/-- Signed decimal exponent body. -/
def parseSignedExp : List Char → Option ℤ
  | '+' :: ds => parseExpDigits ds
  | '-' :: ds => (parseExpDigits ds).map Neg.neg
  | ds => parseExpDigits ds

/-- The optional `e`/`E` exponent suffix of a JS decimal literal; `some 0`
when absent, `none` when malformed. -/
def parseExpPart : List Char → Option ℤ
  | [] => some 0
  | 'e' :: rest => parseSignedExp rest
  | 'E' :: rest => parseSignedExp rest
  | _ => none

/-- Exact value of `10^e` for an integer exponent. -/
def tenPow (e : ℤ) : ℚ :=
  if 0 ≤ e then ((10 ^ e.toNat : ℕ) : ℚ) else 1 / ((10 ^ (-e).toNat : ℕ) : ℚ)

/-- Unsigned JS decimal literal: `digits [. digits] [exp]` or `. digits [exp]`. -/
def parseDec (cs : List Char) : Option ℚ :=
  let ip := cs.takeWhile Char.isDigit
  let r1 := cs.dropWhile Char.isDigit
  match r1 with
  | '.' :: t =>
    let fp := t.takeWhile Char.isDigit
    let r2 := t.dropWhile Char.isDigit
    if ip = [] ∧ fp = [] then none
    else (parseExpPart r2).map (fun e =>
      ((natOfDigits (ip ++ fp) : ℚ) / ((10 ^ fp.length : ℕ) : ℚ)) * tenPow e)
  | _ =>
    if ip = [] then none
    else (parseExpPart r1).map (fun e => (natOfDigits ip : ℚ) * tenPow e)

/-- Whitespace stripped by JS `ToNumber` (the characters that occur in
practice). -/
def isJsWhitespace (c : Char) : Bool :=
  c = ' ' || c = '\t' || c = '\n' || c = '\r'

/-- Trim leading and trailing whitespace. -/
def trimWs (cs : List Char) : List Char :=
  ((cs.dropWhile isJsWhitespace).reverse.dropWhile isJsWhitespace).reverse

def infinityChars : List Char := ['I', 'n', 'f', 'i', 'n', 'i', 't', 'y']

/-- Value of a single digit in radix up to 16 (bound checked at use site). -/
def digitValHex (c : Char) : Option ℕ :=
  if c.isDigit then some (c.toNat - 48)
  else if 'a' ≤ c ∧ c ≤ 'f' then some (c.toNat - 87)
  else if 'A' ≤ c ∧ c ≤ 'F' then some (c.toNat - 55)
  else none

/-- Value of the digit body of a JS `0x`/`0o`/`0b` literal: nonempty, every
character a digit of the radix. -/
def parseRadix (radix : ℕ) (ds : List Char) : Option ℚ :=
  if ds = [] then none
  else
    (ds.foldl (fun acc c =>
      match acc, digitValHex c with
      | some a, some d => if d < radix then some (radix * a + d) else none
      | _, _ => none) (some (0 : ℕ))).map (fun n => (n : ℚ))

/-- The exact mathematical value of a JS string numeric literal (`none` for
`NaN` inputs): whitespace-trimmed empty string is 0; optionally signed
decimal literals; unsigned hexadecimal/octal/binary literals (JS accepts a
sign only on decimal literals); `Infinity` variants are excluded here and
classified by the finiteness check below. -/
def jsLiteral (s : String) : Option ℚ :=
  let t := trimWs s.toList
  match t with
  | [] => some 0
  | '+' :: rest => if rest = infinityChars then none else parseDec rest
  | '-' :: rest => if rest = infinityChars then none else (parseDec rest).map Neg.neg
  | '0' :: 'x' :: ds => parseRadix 16 ds
  | '0' :: 'X' :: ds => parseRadix 16 ds
  | '0' :: 'o' :: ds => parseRadix 8 ds
  | '0' :: 'O' :: ds => parseRadix 8 ds
  | '0' :: 'b' :: ds => parseRadix 2 ds
  | '0' :: 'B' :: ds => parseRadix 2 ds
  | _ => if t = infinityChars then none else parseDec t

/-- The IEEE-754 double overflow boundary `2^1024 - 2^970`: conversion
rounds to nearest, ties to even, so an exact value with magnitude at or
above this midpoint becomes `Infinity` (which `Number.isFinite` rejects) and
one strictly below it becomes a finite double. -/
def jsOverflowThreshold : ℚ := ((2 ^ 1024 - 2 ^ 970 : ℕ) : ℚ)

/-- The `Number.isFinite` classification applied to the exact literal value:
keep values whose magnitude stays below the double overflow boundary. -/
def finiteCheck : Option ℚ → Option ℚ
  | some x =>
    if -jsOverflowThreshold < x ∧ x < jsOverflowThreshold then some x else none
  | none => none

/-- Model of `Number(s)` restricted to finite results (`none` means `NaN` or
`±Infinity`, which `Number.isFinite` rejects).  It returns the exact rational
value of the literal; JavaScript rounds that value to the nearest double, but
the finite/`NaN`/`Infinity` classification — the only thing
`parseLastEventId` branches on — is decided exactly by the magnitude test
against the overflow boundary. -/
def jsNumber (s : String) : Option ℚ := finiteCheck (jsLiteral s)

/-- Model of `typeof x === "string" ? Number(x) : NaN`, keeping only finite values
(mirrors the `Number.isFinite(n)` guards in `parseLastEventId`). -/
def finiteNumberOf (o : Option String) : Option ℚ :=
  match o with
  | some s => jsNumber s
  | none => none

/-- The `parseLastEventId` function: prefer the `last-event-id` request header, fall back
to the `lastEventId` query parameter, default to 0. -/
def parseLastEventId (headerVal queryVal : Option String) : ℚ :=
  match finiteNumberOf headerVal with
  | some v => v
  | none =>
    match finiteNumberOf queryVal with
    | some v => v
    | none => 0

/-! ## Server: request metadata snapshot (`buildRequestDebug`) -/

/-- The request headers `buildRequestDebug` reads (each possibly absent),
plus the `last-event-id` header used by `parseLastEventId`. -/
structure HeadersIn where
  host : Option String
  origin : Option String
  referer : Option String
  userAgent : Option String
  secChUa : Option String
  secChUaMobile : Option String
  secChUaPlatform : Option String
  secFetchDest : Option String
  secFetchMode : Option String
  secFetchSite : Option String
  accept : Option String
  acceptLanguage : Option String
  acceptEncoding : Option String
  cacheControl : Option String
  pragma : Option String
  connection : Option String
  dnt : Option String
  lastEventId : Option String
  cookie : Option String
deriving DecidableEq, Repr

/-- The parts of an Express request the embedded server code reads. -/
structure Request where
  headers : HeadersIn
  ip : String
  ips : List String
  httpVersion : String
  method : String
  path : String
  query : List (String × String)
deriving DecidableEq, Repr

/-- The snapshot embedded in the `connected` payload: echoed headers, the
cookie reduced to presence and length, and request routing metadata. -/
structure RequestDebug where
  host : Option String
  origin : Option String
  referer : Option String
  userAgent : Option String
  secChUa : Option String
  secChUaMobile : Option String
  secChUaPlatform : Option String
  secFetchDest : Option String
  secFetchMode : Option String
  secFetchSite : Option String
  accept : Option String
  acceptLanguage : Option String
  acceptEncoding : Option String
  cacheControl : Option String
  pragma : Option String
  connection : Option String
  dnt : Option String
  hasCookieHeader : Bool
  cookieBytes : ℕ
  ip : String
  ips : List String
  httpVersion : String
  method : String
  path : String
  query : List (String × String)
deriving DecidableEq, Repr

/-- The `buildRequestDebug` function: copy the diagnostic headers; for the credential
(cookie) header expose only `typeof h.cookie === "string" && h.cookie.length
> 0` and `typeof h.cookie === "string" ? h.cookie.length : 0`. -/
def buildRequestDebug (req : Request) : RequestDebug :=
  let h := req.headers
  { host := h.host, origin := h.origin, referer := h.referer,
    userAgent := h.userAgent, secChUa := h.secChUa,
    secChUaMobile := h.secChUaMobile, secChUaPlatform := h.secChUaPlatform,
    secFetchDest := h.secFetchDest, secFetchMode := h.secFetchMode,
    secFetchSite := h.secFetchSite,
    accept := h.accept, acceptLanguage := h.acceptLanguage,
    acceptEncoding := h.acceptEncoding,
    cacheControl := h.cacheControl, pragma := h.pragma,
    connection := h.connection, dnt := h.dnt,
    hasCookieHeader := match h.cookie with
      | some c => decide (0 < c.length)
      | none => false,
    cookieBytes := match h.cookie with
      | some c => c.length
      | none => 0,
    ip := req.ip, ips := req.ips, httpVersion := req.httpVersion,
    method := req.method, path := req.path, query := req.query }

/-- Length of the credential material (0 when absent). -/
def cookieLen : Option String → ℕ
  | some s => s.length
  | none => 0

/-! ## Server: per-connection stream emitter -/

/-- Lookup of a query parameter (`req.query.lastEventId`). -/
def queryLookup (q : List (String × String)) (k : String) : Option String :=
  (q.find? (fun p => p.1 == k)).map (fun p => p.2)

/-- A record the server appends to one connection's stream (heartbeat
comments carry no id). -/
inductive SrvEvent where
  | connected (id : ℚ) (lastEventId : ℚ) (request : RequestDebug)
  | task (id : ℚ)
  | notification (id : ℚ)
  | heartbeat
deriving DecidableEq, Repr

/-- Per-connection server state: the `nextId` counter closed over by
`writeEvent`, the business-event counter, whether `res.end()` ran, and the
emitted records. -/
structure SrvConn where
  nextId : ℚ
  sentBusinessEvents : ℕ
  closed : Bool
  log : List SrvEvent
deriving DecidableEq, Repr

/-- The id assignment of `writeEvent`: `const id = ++nextId`.  The program
increments an IEEE-754 double while this embedding increments an exact
rational; the two coincide exactly while the counter is an integer at most
`2^53` (the range in which doubles represent consecutive integers and the
increment is exact).  For a client-supplied seed at or beyond `2^53` the
program's increment is absorbed by rounding and ids repeat, so every theorem
about the id values carries the corresponding bound as a hypothesis. -/
def bumpId (c : SrvConn) : ℚ × SrvConn :=
  (c.nextId + 1, { c with nextId := c.nextId + 1 })

/-- Emission of a connected record by `writeEvent`: assign the next id and append the
connected record, echoing the received resume point in its payload. -/
def emitConnected (lastEventId : ℚ) (dbg : RequestDebug) (c : SrvConn) : SrvConn :=
  let p := bumpId c
  { p.2 with log := p.2.log ++ [.connected p.1 lastEventId dbg] }

/-- The event-timer body's write: one task or notification record
(the coin flip is a parameter), counting toward the business-event total. -/
def emitBusiness (isTask : Bool) (c : SrvConn) : SrvConn :=
  let p := bumpId c
  { p.2 with
    log := p.2.log ++ [if isTask then .task p.1 else .notification p.1],
    sentBusinessEvents := p.2.sentBusinessEvents + 1 }

/-- One firing of the event interval: write a business record, bump the
counter, and close the stream when the configured cap is reached
(`closeAfter > 0 && sentBusinessEvents >= closeAfter`).  A `closed`
connection's timers were cleared, so a tick on it does nothing. -/
def tickStep (closeAfter : ℕ) (isTask : Bool) (c : SrvConn) : SrvConn :=
  if c.closed then c
  else
    let c' := emitBusiness isTask c
    if 0 < closeAfter ∧ closeAfter ≤ c'.sentBusinessEvents then
      { c' with closed := true }
    else c'

/-- Connection setup in the `/v1/sse/connect` route: seed `nextId` from the
parsed resume point and write the initial `connected` record (the padding
comment and `retry:` hint carry no id and are not modelled). -/
def openConn (req : Request) : SrvConn :=
  let lei := parseLastEventId req.headers.lastEventId (queryLookup req.query "lastEventId")
  emitConnected lei (buildRequestDebug req)
    { nextId := lei, sentBusinessEvents := 0, closed := false, log := [] }

/-- The timer firings that drive one connection after setup: the 350 ms
repeat of the `connected` record, a heartbeat comment, or the business-event
interval. -/
inductive SrvOp where
  | repeatConnected
  | heartbeat
  | tick (isTask : Bool)
deriving DecidableEq, Repr

/-- One timer firing (`lei`/`dbg` are the connection's captured resume point
and request snapshot; timers of an ended stream were cleared). -/
def srvStep (closeAfter : ℕ) (lei : ℚ) (dbg : RequestDebug) : SrvOp → SrvConn → SrvConn
  | .repeatConnected => fun c => if c.closed then c else emitConnected lei dbg c
  | .heartbeat => fun c => if c.closed then c else { c with log := c.log ++ [.heartbeat] }
  | .tick b => tickStep closeAfter b

/-- A whole schedule of timer firings. -/
def srvRun (closeAfter : ℕ) (lei : ℚ) (dbg : RequestDebug) :
    List SrvOp → SrvConn → SrvConn
  | [], c => c
  | op :: ops, c => srvRun closeAfter lei dbg ops (srvStep closeAfter lei dbg op c)

/-- The id carried by a record (heartbeat comments have none). -/
def eventIdOf : SrvEvent → Option ℚ
  | .connected i _ _ => some i
  | .task i => some i
  | .notification i => some i
  | .heartbeat => none

/-- The ids assigned by `writeEvent`, in emission order. -/
def logIds (l : List SrvEvent) : List ℚ := l.filterMap eventIdOf

/-- The consecutive ids `r+1, r+2, …, r+k`. -/
def idsFrom (r : ℚ) (k : ℕ) : List ℚ :=
  (List.range k).map (fun (i : ℕ) => r + ((i : ℚ) + 1))

/-- Invariant: the assigned ids are exactly `r+1 … r+k` and `nextId` sits at
`r+k`. -/
def IdsOk (r : ℚ) (c : SrvConn) : Prop :=
  c.nextId = r + ((logIds c.log).length : ℚ) ∧
  logIds c.log = idsFrom r (logIds c.log).length

/-- Whether a record counts toward the `closeAfter` cap. -/
def isBusinessEvent : SrvEvent → Bool
  | .task _ => true
  | .notification _ => true
  | _ => false

/-- Number of application (business) records in a log. -/
def businessCount (l : List SrvEvent) : ℕ := (l.filter isBusinessEvent).length

/-- A record's kind, with id and payload erased. -/
inductive SrvKind where
  | connected
  | task
  | notification
  | heartbeat
deriving DecidableEq, Repr

def kindOf : SrvEvent → SrvKind
  | .connected _ _ _ => .connected
  | .task _ => .task
  | .notification _ => .notification
  | .heartbeat => .heartbeat

/-- Two connection states that agree on everything the control flow reads
(the id counter may differ). -/
def SameShape (c1 c2 : SrvConn) : Prop :=
  c1.sentBusinessEvents = c2.sentBusinessEvents ∧
  c1.closed = c2.closed ∧
  c1.log.map kindOf = c2.log.map kindOf

/-- Headers with nothing set. -/
def emptyHeaders : HeadersIn :=
  { host := none, origin := none, referer := none, userAgent := none,
    secChUa := none, secChUaMobile := none, secChUaPlatform := none,
    secFetchDest := none, secFetchMode := none, secFetchSite := none,
    accept := none, acceptLanguage := none, acceptEncoding := none,
    cacheControl := none, pragma := none, connection := none, dnt := none,
    lastEventId := none, cookie := none }

/-- A bare request: no resume point in header or query. -/
def emptyRequest : Request :=
  { headers := emptyHeaders, ip := "", ips := [], httpVersion := "1.1",
    method := "GET", path := "/v1/sse/connect", query := [] }

/-! ## Consumer: Tasks widget handler

`evt.data` is JSON text; `safeJsonParse` wraps `JSON.parse` in try/catch and
returns `null` on failure.  The parse outcome is modelled as the event
carrying `Option TaskMsg` (`none` = malformed payload), which is exactly what
the handler branches on. -/

/-- The fields of a parsed task payload the widget reads. -/
structure TaskMsg where
  type : String
  taskId : String
  title : String
  amount : ℤ
  connectionId : String
  epochMs : ℕ
deriving DecidableEq, Repr

/-- A rendered task entry (`{ ...data, receivedAt }`). -/
structure TaskItem where
  msg : TaskMsg
  receivedAt : ℕ
deriving DecidableEq, Repr

/-- The TasksWidget state touched by the handler. -/
structure TasksWidgetState where
  tasks : List TaskItem
  eventCount : ℕ
  errorCount : ℕ
deriving DecidableEq, Repr

/-- The `task` listener body: a missing parse result or a payload whose
`type` is not `"task"` bumps the error counter and returns; a valid payload
bumps the event counter and prepends the task (keeping 20). -/
def taskHandler (s : TasksWidgetState) (receivedAt : ℕ) (data : Option TaskMsg) :
    TasksWidgetState :=
  match data with
  | none => { s with errorCount := s.errorCount + 1 }
  | some d =>
    if d.type ≠ "task" then { s with errorCount := s.errorCount + 1 }
    else
      { s with eventCount := s.eventCount + 1,
               tasks := (⟨d, receivedAt⟩ :: s.tasks).take 20 }

/-- Dispatching a list of incoming `task`-channel events (each with its
receive time and parse outcome) through the handler. -/
def processTaskEvents (s : TasksWidgetState) :
    List (ℕ × Option TaskMsg) → TasksWidgetState
  | [] => s
  | e :: rest => processTaskEvents (taskHandler s e.1 e.2) rest

/-- An incoming record the handler rejects: malformed JSON (`none`) or a
`type` field different from the subscribed kind. -/
def badTask : Option TaskMsg → Bool
  | none => true
  | some m => m.type != "task"

/-- A well-formed task payload, used as a concrete witness input. -/
def goodMsg : TaskMsg :=
  { type := "task", taskId := "t-1", title := "pay", amount := 10,
    connectionId := "c-1", epochMs := 0 }

/-- The widget state at mount. -/
def widgetInit : TasksWidgetState := { tasks := [], eventCount := 0, errorCount := 0 }

/-! ## Proofs -/

@[simp] lemma clearRetryTimer_instanceId (s : MgrState) :
    (clearRetryTimer s).instanceId = s.instanceId := rfl

@[simp] lemma clearRetryTimer_handle (s : MgrState) :
    (clearRetryTimer s).handle = s.handle := rfl

@[simp] lemma clearRetryTimer_liveCount (s : MgrState) :
    (clearRetryTimer s).liveCount = s.liveCount := rfl

@[simp] lemma clearRetryTimer_attemptCount (s : MgrState) :
    (clearRetryTimer s).attemptCount = s.attemptCount := rfl

@[simp] lemma closeCurrent_instanceId (s : MgrState) :
    (closeCurrent s).instanceId = s.instanceId := by
  unfold closeCurrent; cases s.handle <;> rfl

@[simp] lemma closeCurrent_attemptCount (s : MgrState) :
    (closeCurrent s).attemptCount = s.attemptCount := by
  unfold closeCurrent; cases s.handle <;> rfl

@[simp] lemma connectStep_instanceId (s : MgrState) :
    (connectStep s).instanceId = s.instanceId + 1 := by
  unfold connectStep clearRetryTimer closeCurrent
  cases s.handle <;> rfl

@[simp] lemma connectStep_handle (s : MgrState) :
    (connectStep s).handle = some ⟨s.instanceId + 1, 0⟩ := by
  unfold connectStep clearRetryTimer closeCurrent
  cases s.handle <;> rfl

@[simp] lemma connectStep_attemptCount (s : MgrState) :
    (connectStep s).attemptCount = s.attemptCount + 1 := by
  unfold connectStep clearRetryTimer closeCurrent
  cases s.handle <;> rfl

@[simp] lemma connectStep_retryDelay (s : MgrState) :
    (connectStep s).retryDelay = none := by
  unfold connectStep clearRetryTimer closeCurrent
  cases s.handle <;> rfl

@[simp] lemma openStep_instanceId (s : MgrState) :
    (openStep s).instanceId = s.instanceId := by
  unfold openStep; cases s.handle <;> rfl

@[simp] lemma errorStep_instanceId (s : MgrState) :
    (errorStep s).instanceId = s.instanceId := by
  unfold errorStep; cases s.handle <;> rfl

lemma inv_initState : Inv initState := by
  constructor
  · rfl
  · intro t ht; cases ht

lemma inv_clearRetryTimer {s : MgrState} (h : Inv s) : Inv (clearRetryTimer s) := h

lemma inv_closeCurrent {s : MgrState} (h : Inv s) : Inv (closeCurrent s) := by
  obtain ⟨iid, hd, ac, rd, ha, lc⟩ := s
  obtain ⟨h1, h2⟩ := h
  cases hd with
  | none => exact ⟨h1, h2⟩
  | some t =>
    simp only [Option.isSome_some, if_true] at h1
    refine ⟨?_, ?_⟩
    · simp [closeCurrent, h1]
    · intro t' ht'
      simp [closeCurrent] at ht'

lemma inv_connectStep {s : MgrState} (h : Inv s) : Inv (connectStep s) := by
  obtain ⟨iid, hd, ac, rd, ha, lc⟩ := s
  obtain ⟨h1, h2⟩ := h
  cases hd with
  | none =>
    simp only [Option.isSome_none, if_false] at h1
    refine ⟨?_, ?_⟩
    · simp [connectStep, clearRetryTimer, closeCurrent, h1]
    · intro t' ht'
      simp [connectStep, clearRetryTimer, closeCurrent] at ht'
      simp [← ht']
  | some t =>
    simp only [Option.isSome_some, if_true] at h1
    refine ⟨?_, ?_⟩
    · simp [connectStep, clearRetryTimer, closeCurrent, h1]
    · intro t' ht'
      simp [connectStep, clearRetryTimer, closeCurrent] at ht'
      simp [← ht']

lemma inv_openStep {s : MgrState} (h : Inv s) : Inv (openStep s) := by
  obtain ⟨iid, hd, ac, rd, ha, lc⟩ := s
  obtain ⟨h1, h2⟩ := h
  cases hd with
  | none => exact ⟨h1, h2⟩
  | some t =>
    simp only [Option.isSome_some, if_true] at h1
    refine ⟨by simp [openStep, h1], ?_⟩
    intro t' ht'
    simp [openStep] at ht'
    have := h2 t rfl
    simp [← ht', this]

lemma inv_errorStep {s : MgrState} (h : Inv s) : Inv (errorStep s) := by
  obtain ⟨iid, hd, ac, rd, ha, lc⟩ := s
  obtain ⟨h1, h2⟩ := h
  cases hd with
  | none => exact ⟨h1, h2⟩
  | some t =>
    simp only [Option.isSome_some, if_true] at h1
    refine ⟨by simp [errorStep, h1], ?_⟩
    intro t' ht'
    simp [errorStep] at ht'

lemma inv_visHiddenStep (now : ℕ) {s : MgrState} (h : Inv s) : Inv (visHiddenStep now s) := h

lemma inv_visVisibleStep (threshold now : ℕ) {s : MgrState} (h : Inv s) :
    Inv (visVisibleStep threshold now s) := by
  obtain ⟨iid, hd, ac, rd, ha, lc⟩ := s
  have h0 : Inv (⟨iid, hd, ac, rd, none, lc⟩ : MgrState) := ⟨h.1, h.2⟩
  cases hd with
  | none =>
    exact inv_connectStep (inv_clearRetryTimer h0)
  | some t =>
    show Inv (if t.readyState = 2 then _ else _)
    by_cases hrs : t.readyState = 2
    · rw [if_pos hrs]
      exact inv_connectStep (inv_clearRetryTimer h0)
    · rw [if_neg hrs]
      cases ha with
      | none => exact h0
      | some h0t =>
        show Inv (if threshold = 0 ∨ now - h0t > threshold then _ else _)
        by_cases hc : threshold = 0 ∨ now - h0t > threshold
        · rw [if_pos hc]
          exact inv_connectStep (inv_clearRetryTimer (inv_closeCurrent h0))
        · rw [if_neg hc]
          exact h0

lemma inv_onlineStep {s : MgrState} (h : Inv s) : Inv (onlineStep s) :=
  inv_connectStep (inv_clearRetryTimer (inv_closeCurrent h))

lemma inv_pageHideStep (persisted : Bool) {s : MgrState} (h : Inv s) :
    Inv (pageHideStep persisted s) := by
  unfold pageHideStep
  cases persisted with
  | true => exact h
  | false => exact inv_closeCurrent h

lemma inv_beforeUnloadStep {s : MgrState} (h : Inv s) : Inv (beforeUnloadStep s) :=
  inv_closeCurrent h

lemma inv_teardownStep {s : MgrState} (h : Inv s) : Inv (teardownStep s) :=
  inv_closeCurrent (inv_clearRetryTimer h)

lemma inv_step (threshold : ℕ) (e : MgrEvent) {s : MgrState} (h : Inv s) :
    Inv (step threshold e s) := by
  cases e with
  | connect => exact inv_connectStep h
  | transportOpen => exact inv_openStep h
  | transportError => exact inv_errorStep h
  | visibilityHidden n => exact inv_visHiddenStep n h
  | visibilityVisible n => exact inv_visVisibleStep threshold n h
  | online => exact inv_onlineStep h
  | pageHide p => exact inv_pageHideStep p h
  | beforeUnload => exact inv_beforeUnloadStep h
  | teardown => exact inv_teardownStep h

lemma reachable_inv {threshold : ℕ} {s : MgrState} (h : Reachable threshold s) : Inv s := by
  induction h with
  | init => exact inv_initState
  | next e _ ih => exact inv_step _ e ih

/-- Claim C1.  The generation counter (`instanceId`) increases by exactly 1 on
every run of `connect()` (the only place a transport is created), and a run of
the transport's `onopen` handler or `onerror` handler alone leaves it
unchanged. -/
theorem generation_increments_only_on_connect (threshold : ℕ) (s : MgrState) :
    (step threshold .connect s).instanceId = s.instanceId + 1 ∧
    (step threshold .transportOpen s).instanceId = s.instanceId ∧
    (step threshold .transportError s).instanceId = s.instanceId :=
  ⟨connectStep_instanceId s, openStep_instanceId s, errorStep_instanceId s⟩

/-- Claim C2.  The `connect()` handler publishes the new transport handle and
increments the generation counter within the same synchronous step that
creates the transport — the post-state of that single step already holds
both, before the `onopen` network confirmation (a separate later step) and
before any record can be dispatched (dispatch only happens between handler
steps).  Consequently, at every reachable state — every point where a
consumer can run — the published handle carries exactly the current
generation: no consumer can see a new generation with the old handle, nor a
new handle with an old generation. -/
theorem generation_and_handle_atomic (threshold : ℕ) (s : MgrState)
    (h : Reachable threshold s) :
    (step threshold .connect s).handle = some ⟨(step threshold .connect s).instanceId, 0⟩ ∧
    (∀ t, s.handle = some t → t.tid = s.instanceId) := by
  refine ⟨?_, (reachable_inv h).2⟩
  show (connectStep s).handle = some ⟨(connectStep s).instanceId, 0⟩
  rw [connectStep_handle s, connectStep_instanceId s]

/-- Witness for C2 at a concrete reachable state (the state right after the
mount-time `connect()`): the published transport's identity equals the
current generation. -/
theorem generation_and_handle_atomic_witness :
    (Transport.mk 1 0).tid = (step 0 MgrEvent.connect initState).instanceId :=
  (generation_and_handle_atomic 0 (step 0 MgrEvent.connect initState)
    (Reachable.next MgrEvent.connect Reachable.init)).2 ⟨1, 0⟩ rfl

/-- Claim C4.  At every reachable state of the manager — after any interleaving
of connect, open, error, visibility, online and teardown handlers — the
number of transports that have been created and not closed (hence the number
of non-null handles the manager can hold) is at most 1. -/
theorem at_most_one_live_transport (threshold : ℕ) (s : MgrState)
    (h : Reachable threshold s) : s.liveCount ≤ 1 := by
  have h1 := (reachable_inv h).1
  rw [h1]
  cases s.handle.isSome <;> simp

/-- Witness for C4 at a concrete reachable state (after mount-connect, an
error, and a reconnect). -/
theorem at_most_one_live_transport_witness :
    (step 0 MgrEvent.connect (step 0 MgrEvent.transportError
      (step 0 MgrEvent.connect initState))).liveCount ≤ 1 :=
  at_most_one_live_transport 0 _
    (Reachable.next MgrEvent.connect (Reachable.next MgrEvent.transportError
      (Reachable.next MgrEvent.connect Reachable.init)))

lemma failCycle_attemptCount (s : MgrState) :
    (failCycle s).attemptCount = s.attemptCount + 1 := by
  unfold failCycle
  unfold errorStep
  rw [connectStep_handle s]
  exact connectStep_attemptCount s

lemma failCycle_retryDelay (s : MgrState) :
    (failCycle s).retryDelay = some (errorDelay ((s.attemptCount + 1 : ℕ) : ℤ)) := by
  unfold failCycle
  unfold errorStep
  rw [connectStep_handle s]
  show some (errorDelay ((connectStep s).attemptCount : ℤ)) = _
  rw [connectStep_attemptCount s]

lemma failIter_spec (n : ℕ) (s : MgrState) :
    (failIter n s).attemptCount = s.attemptCount + n ∧
    (1 ≤ n → (failIter n s).retryDelay
        = some (errorDelay ((s.attemptCount + n : ℕ) : ℤ))) := by
  induction n generalizing s with
  | zero => exact ⟨rfl, fun h => absurd h (by omega)⟩
  | succ m ih =>
    have hc := failCycle_attemptCount s
    rcases ih (failCycle s) with ⟨iha, ihd⟩
    constructor
    · show (failIter m (failCycle s)).attemptCount = s.attemptCount + (m + 1)
      rw [iha, hc]; omega
    · intro _
      cases m with
      | zero => exact failCycle_retryDelay s
      | succ k =>
        show (failIter (k + 1) (failCycle s)).retryDelay = _
        rw [ihd (by omega), hc]
        congr 2
        omega

/-- Claim C3.  For consecutive failed connection attempts numbered 1, 2, 3, …
(each a `connect()` whose transport errors before opening), the retry delay
scheduled by the `onerror` handler at failure `n` equals
`min(30000, 1000 * 2^min(n-1, 5))` milliseconds, where `n` is the failure
count already incremented by `connect()` for this attempt sequence.  The
resulting sequence is 1000, 2000, 4000, 8000, 16000, 30000, 30000, …
(see the witness). -/
theorem backoff_delay_formula (s : MgrState) (n : ℕ)
    (hs : s.attemptCount = 0) (hn : 1 ≤ n) :
    (failIter n s).retryDelay
      = some (min 30000 (1000 * (2 : ℚ) ^ (min ((n : ℤ) - 1) 5))) := by
  have h := (failIter_spec n s).2 hn
  rw [hs] at h
  rw [h]
  unfold errorDelay
  norm_num

/-- Witness for C3: the concrete delay sequence for failures 1..7 starting
from a fresh manager state. -/
theorem backoff_delay_formula_witness :
    (failIter 1 initState).retryDelay = some 1000 ∧
    (failIter 2 initState).retryDelay = some 2000 ∧
    (failIter 3 initState).retryDelay = some 4000 ∧
    (failIter 4 initState).retryDelay = some 8000 ∧
    (failIter 5 initState).retryDelay = some 16000 ∧
    (failIter 6 initState).retryDelay = some 30000 ∧
    (failIter 7 initState).retryDelay = some 30000 := by
  refine ⟨?_, ?_, ?_, ?_, ?_, ?_, ?_⟩ <;>
    rw [backoff_delay_formula initState _ rfl (by norm_num)] <;> norm_num

/-- Claim C10.  If the transport errors after its `onopen` handler already ran
(so `attemptCountRef` was reset to 0 and no new `connect()` happened in
between), the `onerror` handler computes
`min(30000, 1000 * 2^min(0-1, 5)) = 1000 * 2^(-1) = 500` ms — strictly below
the 1000 ms delay of the first failure of a fresh attempt sequence. -/
theorem post_open_error_delay_500 (threshold : ℕ) (s : MgrState) (t : Transport)
    (h : s.handle = some t) :
    (step threshold .transportError (step threshold .transportOpen s)).retryDelay
        = some 500 ∧ (500 : ℚ) < 1000 := by
  constructor
  · show (errorStep (openStep s)).retryDelay = some 500
    have h1 : (openStep s).handle = some ⟨t.tid, 1⟩ := by
      unfold openStep; rw [h]
    have h2 : (openStep s).attemptCount = 0 := by
      unfold openStep; rw [h]
    have h3 : (errorStep (openStep s)).retryDelay
        = some (errorDelay ((openStep s).attemptCount : ℤ)) := by
      unfold errorStep; rw [h1]
    rw [h3, h2]
    unfold errorDelay
    norm_num
  · norm_num

/-- Witness for C10: a freshly connected manager state (handle published by
`connect()`) that then opens and errors schedules a 500 ms retry. -/
theorem post_open_error_delay_500_witness :
    (step 0 MgrEvent.transportError (step 0 MgrEvent.transportOpen
      (step 0 MgrEvent.connect initState))).retryDelay = some 500 ∧ (500 : ℚ) < 1000 :=
  post_open_error_delay_500 0 (step 0 MgrEvent.connect initState) ⟨1, 0⟩ rfl

/-- Claim C6.  The function `parseLastEventId` prefers the header-carried resume point over
the query-parameter one (the header value wins whenever it is a finite
number), falls back to the query parameter, and returns 0 when neither input
is a string that converts to a finite number (non-numeric or absent). -/
theorem resume_point_header_preferred (h q : Option String) :
    (∀ v, finiteNumberOf h = some v → parseLastEventId h q = v) ∧
    (finiteNumberOf h = none →
      ∀ v, finiteNumberOf q = some v → parseLastEventId h q = v) ∧
    (finiteNumberOf h = none → finiteNumberOf q = none → parseLastEventId h q = 0) := by
  unfold parseLastEventId
  refine ⟨?_, ?_, ?_⟩
  · intro v hv; rw [hv]
  · intro hh v hv; rw [hh, hv]
  · intro hh hq; rw [hh, hq]

lemma finiteCheck_small {x : ℚ} (h1 : -jsOverflowThreshold < x)
    (h2 : x < jsOverflowThreshold) : finiteCheck (some x) = some x := by
  show (if -jsOverflowThreshold < x ∧ x < jsOverflowThreshold then some x else none)
      = some x
  rw [if_pos ⟨h1, h2⟩]

lemma finiteCheck_overflow {x : ℚ} (h : jsOverflowThreshold ≤ x) :
    finiteCheck (some x) = none := by
  show (if -jsOverflowThreshold < x ∧ x < jsOverflowThreshold then some x else none)
      = none
  rw [if_neg (fun hcon => absurd hcon.2 (not_lt.mpr h))]

/-- Witness for C6 on concrete inputs: a numeric header wins over the query
parameter; a non-numeric header falls back to the query parameter; two
non-numbers give 0; an overflowing decimal header (`Infinity` under the
double conversion) is rejected and falls back to the query parameter; a
hexadecimal header is a finite number and wins. -/
theorem resume_point_header_preferred_witness :
    parseLastEventId (some "42") (some "7") = 42 ∧
    parseLastEventId (some "abc") (some "7") = 7 ∧
    parseLastEventId (some "abc") none = 0 ∧
    parseLastEventId (some "1e400") (some "7") = 7 ∧
    parseLastEventId (some "0x10") none = 16 := by
  have h42 : finiteNumberOf (some "42") = some 42 := by
    show finiteCheck (jsLiteral "42") = some 42
    have h : jsLiteral "42" = some ((natOfDigits ['4', '2'] : ℚ) * tenPow 0) := rfl
    have h2 : natOfDigits ['4', '2'] = 42 := by decide
    have hv : ((42 : ℕ) : ℚ) * tenPow 0 = 42 := by norm_num [tenPow]
    rw [h, h2, hv]
    exact finiteCheck_small (by norm_num [jsOverflowThreshold])
      (by norm_num [jsOverflowThreshold])
  have h7 : finiteNumberOf (some "7") = some 7 := by
    show finiteCheck (jsLiteral "7") = some 7
    have h : jsLiteral "7" = some ((natOfDigits ['7'] : ℚ) * tenPow 0) := rfl
    have h2 : natOfDigits ['7'] = 7 := by decide
    have hv : ((7 : ℕ) : ℚ) * tenPow 0 = 7 := by norm_num [tenPow]
    rw [h, h2, hv]
    exact finiteCheck_small (by norm_num [jsOverflowThreshold])
      (by norm_num [jsOverflowThreshold])
  have habc : finiteNumberOf (some "abc") = none := by decide
  have h1e : finiteNumberOf (some "1e400") = none := by
    show finiteCheck (jsLiteral "1e400") = none
    have h : jsLiteral "1e400" = some ((natOfDigits ['1'] : ℚ) * tenPow 400) := rfl
    have h2 : natOfDigits ['1'] = 1 := by decide
    rw [h, h2]
    exact finiteCheck_overflow (by
      have htn : ((400 : ℤ)).toNat = 400 := rfl
      norm_num [tenPow, jsOverflowThreshold, htn])
  have hx : finiteNumberOf (some "0x10") = some 16 := by
    show finiteCheck (jsLiteral "0x10") = some 16
    have h : jsLiteral "0x10" = parseRadix 16 ['1', '0'] := rfl
    have h2 : parseRadix 16 ['1', '0'] = some ((16 : ℕ) : ℚ) := by decide
    have hb1 : -jsOverflowThreshold < ((16 : ℕ) : ℚ) := by
      norm_num [jsOverflowThreshold]
    have hb2 : ((16 : ℕ) : ℚ) < jsOverflowThreshold := by
      norm_num [jsOverflowThreshold]
    rw [h, h2, finiteCheck_small hb1 hb2]
    norm_num
  refine ⟨?_, ?_, ?_, ?_, ?_⟩
  · exact (resume_point_header_preferred (some "42") (some "7")).1 42 h42
  · exact (resume_point_header_preferred (some "abc") (some "7")).2.1 habc 7 h7
  · exact (resume_point_header_preferred (some "abc") none).2.2 habc rfl
  · exact (resume_point_header_preferred (some "1e400") (some "7")).2.1 h1e 7 h7
  · exact (resume_point_header_preferred (some "0x10") none).1 16 hx

/-- Claim C9.  The request snapshot embedded in the `connected` record depends
on the credential material (the Cookie header) only through its presence and
its length: two requests that differ solely in the cookie's value, agreeing
on presence and byte length, produce identical snapshots — the cookie's
content never reaches the payload. -/
theorem snapshot_hides_cookie_value (r : Request) (c1 c2 : Option String)
    (hp : c1.isSome = c2.isSome) (hl : cookieLen c1 = cookieLen c2) :
    buildRequestDebug { r with headers := { r.headers with cookie := c1 } }
      = buildRequestDebug { r with headers := { r.headers with cookie := c2 } } := by
  cases c1 with
  | none =>
    cases c2 with
    | none => rfl
    | some s2 => simp at hp
  | some s1 =>
    cases c2 with
    | none => simp at hp
    | some s2 =>
      have hlen : s1.length = s2.length := hl
      simp [buildRequestDebug, hlen]

/-- Witness for C9: cookies `"abc"` and `"xyz"` (same presence, same length,
different values) give byte-identical snapshots. -/
theorem snapshot_hides_cookie_value_witness :
    buildRequestDebug { emptyRequest with
        headers := { emptyHeaders with cookie := some "abc" } }
      = buildRequestDebug { emptyRequest with
        headers := { emptyHeaders with cookie := some "xyz" } } :=
  snapshot_hides_cookie_value emptyRequest (some "abc") (some "xyz") rfl (by decide)

lemma srvRun_nil (ca : ℕ) (lei : ℚ) (dbg : RequestDebug) (c : SrvConn) :
    srvRun ca lei dbg [] c = c := rfl

lemma srvRun_cons (ca : ℕ) (lei : ℚ) (dbg : RequestDebug) (op : SrvOp)
    (ops : List SrvOp) (c : SrvConn) :
    srvRun ca lei dbg (op :: ops) c = srvRun ca lei dbg ops (srvStep ca lei dbg op c) := rfl

lemma logIds_append (l1 l2 : List SrvEvent) :
    logIds (l1 ++ l2) = logIds l1 ++ logIds l2 := by
  simp [logIds]

lemma idsFrom_succ (r : ℚ) (k : ℕ) :
    idsFrom r (k + 1) = idsFrom r k ++ [r + ((k : ℚ) + 1)] := by
  unfold idsFrom
  rw [List.range_succ]
  simp

lemma idsOk_append_bump {r : ℚ} {c : SrvConn} (h : IdsOk r c) (e : SrvEvent)
    (he : eventIdOf e = some (c.nextId + 1)) (sb : ℕ) (cl : Bool) :
    IdsOk r { nextId := c.nextId + 1, sentBusinessEvents := sb, closed := cl,
              log := c.log ++ [e] } := by
  obtain ⟨h1, h2⟩ := h
  have hone : logIds [e] = [c.nextId + 1] := by
    simp [logIds, List.filterMap, he]
  have hids : logIds (c.log ++ [e]) = logIds c.log ++ [c.nextId + 1] := by
    rw [logIds_append, hone]
  have hlen : (logIds (c.log ++ [e])).length = (logIds c.log).length + 1 := by
    rw [hids]; simp
  constructor
  · show c.nextId + 1 = r + ((logIds (c.log ++ [e])).length : ℚ)
    rw [hlen, h1]
    push_cast
    ring
  · show logIds (c.log ++ [e]) = idsFrom r (logIds (c.log ++ [e])).length
    have hnext : c.nextId + 1 = r + (((logIds c.log).length : ℚ) + 1) := by
      rw [h1]; ring
    rw [hlen, hids, idsFrom_succ, ← h2, hnext]

lemma idsOk_heartbeat_append {r : ℚ} {c : SrvConn} (h : IdsOk r c) :
    IdsOk r { c with log := c.log ++ [.heartbeat] } := by
  obtain ⟨h1, h2⟩ := h
  have hids : logIds (c.log ++ [.heartbeat]) = logIds c.log := by
    rw [logIds_append]
    simp [logIds, List.filterMap, eventIdOf]
  exact ⟨by show c.nextId = _; rw [hids]; exact h1,
         by show logIds (c.log ++ [.heartbeat]) = _; rw [hids]; exact h2⟩

lemma idsOk_emitConnected {r : ℚ} {c : SrvConn} (h : IdsOk r c)
    (lei : ℚ) (dbg : RequestDebug) : IdsOk r (emitConnected lei dbg c) :=
  idsOk_append_bump h (.connected (c.nextId + 1) lei dbg) rfl
    c.sentBusinessEvents c.closed

lemma idsOk_emitBusiness {r : ℚ} {c : SrvConn} (h : IdsOk r c) (isTask : Bool) :
    IdsOk r (emitBusiness isTask c) := by
  cases isTask with
  | true =>
    exact idsOk_append_bump h (.task (c.nextId + 1)) rfl
      (c.sentBusinessEvents + 1) c.closed
  | false =>
    exact idsOk_append_bump h (.notification (c.nextId + 1)) rfl
      (c.sentBusinessEvents + 1) c.closed

lemma idsOk_tickStep {r : ℚ} {c : SrvConn} (h : IdsOk r c) (ca : ℕ) (b : Bool) :
    IdsOk r (tickStep ca b c) := by
  unfold tickStep
  by_cases hc : c.closed
  · rw [if_pos hc]; exact h
  · rw [if_neg hc]
    have h' := idsOk_emitBusiness h b
    by_cases hcap : 0 < ca ∧ ca ≤ (emitBusiness b c).sentBusinessEvents
    · rw [if_pos hcap]; exact h'
    · rw [if_neg hcap]; exact h'

lemma idsOk_srvStep {r : ℚ} {c : SrvConn} (h : IdsOk r c) (ca : ℕ) (lei : ℚ)
    (dbg : RequestDebug) (op : SrvOp) : IdsOk r (srvStep ca lei dbg op c) := by
  cases op with
  | repeatConnected =>
    show IdsOk r (if c.closed then c else emitConnected lei dbg c)
    by_cases hc : c.closed
    · rw [if_pos hc]; exact h
    · rw [if_neg hc]; exact idsOk_emitConnected h lei dbg
  | heartbeat =>
    show IdsOk r (if c.closed then c else { c with log := c.log ++ [.heartbeat] })
    by_cases hc : c.closed
    · rw [if_pos hc]; exact h
    · rw [if_neg hc]; exact idsOk_heartbeat_append h
  | tick b => exact idsOk_tickStep h ca b

lemma idsOk_srvRun {r : ℚ} (ca : ℕ) (lei : ℚ) (dbg : RequestDebug)
    (ops : List SrvOp) {c : SrvConn} (h : IdsOk r c) :
    IdsOk r (srvRun ca lei dbg ops c) := by
  induction ops generalizing c with
  | nil => exact h
  | cons op rest ih => exact ih (idsOk_srvStep h ca lei dbg op)

lemma idsOk_openConn (req : Request) :
    IdsOk (parseLastEventId req.headers.lastEventId (queryLookup req.query "lastEventId"))
      (openConn req) := by
  apply idsOk_emitConnected (c :=
    { nextId := parseLastEventId req.headers.lastEventId (queryLookup req.query "lastEventId"),
      sentBusinessEvents := 0, closed := false, log := [] })
  constructor
  · show parseLastEventId _ _ = parseLastEventId _ _ + (((logIds []).length : ℕ) : ℚ)
    simp [logIds]
  · rfl

lemma pairwise_idsFrom (r : ℚ) (k : ℕ) : (idsFrom r k).Pairwise (· < ·) := by
  unfold idsFrom
  refine List.Pairwise.map (fun (i : ℕ) => r + ((i : ℚ) + 1)) ?_ (List.pairwise_lt_range k)
  intro a b hab
  show r + ((a : ℚ) + 1) < r + ((b : ℚ) + 1)
  have hq : (a : ℚ) < (b : ℚ) := by exact_mod_cast hab
  linarith

lemma srvStep_log_extends (ca : ℕ) (lei : ℚ) (dbg : RequestDebug) (op : SrvOp)
    (c : SrvConn) : ∃ l', (srvStep ca lei dbg op c).log = c.log ++ l' := by
  cases op with
  | repeatConnected =>
    show ∃ l', (if c.closed then c else emitConnected lei dbg c).log = c.log ++ l'
    by_cases hc : c.closed
    · rw [if_pos hc]; exact ⟨[], by simp⟩
    · rw [if_neg hc]; exact ⟨_, rfl⟩
  | heartbeat =>
    show ∃ l', (if c.closed then c else { c with log := c.log ++ [.heartbeat] }).log = c.log ++ l'
    by_cases hc : c.closed
    · rw [if_pos hc]; exact ⟨[], by simp⟩
    · rw [if_neg hc]; exact ⟨_, rfl⟩
  | tick b =>
    show ∃ l', (tickStep ca b c).log = c.log ++ l'
    unfold tickStep
    by_cases hc : c.closed
    · rw [if_pos hc]; exact ⟨[], by simp⟩
    · rw [if_neg hc]
      by_cases hcap : 0 < ca ∧ ca ≤ (emitBusiness b c).sentBusinessEvents
      · rw [if_pos hcap]; exact ⟨_, rfl⟩
      · rw [if_neg hcap]; exact ⟨_, rfl⟩

lemma srvRun_log_extends (ca : ℕ) (lei : ℚ) (dbg : RequestDebug) (ops : List SrvOp)
    (c : SrvConn) : ∃ l', (srvRun ca lei dbg ops c).log = c.log ++ l' := by
  induction ops generalizing c with
  | nil => exact ⟨[], by rw [srvRun_nil, List.append_nil]⟩
  | cons op rest ih =>
    obtain ⟨l1, hl1⟩ := srvStep_log_extends ca lei dbg op c
    obtain ⟨l2, hl2⟩ := ih (srvStep ca lei dbg op c)
    exact ⟨l1 ++ l2, by rw [srvRun_cons, hl2, hl1, List.append_assoc]⟩

lemma sameShape_emitConnected {c1 c2 : SrvConn} (h : SameShape c1 c2)
    (l1 l2 : ℚ) (d1 d2 : RequestDebug) :
    SameShape (emitConnected l1 d1 c1) (emitConnected l2 d2 c2) := by
  obtain ⟨hs, hc, hk⟩ := h
  exact ⟨hs, hc, by
    show (c1.log ++ [_]).map kindOf = (c2.log ++ [_]).map kindOf
    rw [List.map_append, List.map_append, hk]
    rfl⟩

lemma sameShape_srvStep {c1 c2 : SrvConn} (h : SameShape c1 c2) (ca : ℕ)
    (l1 l2 : ℚ) (d1 d2 : RequestDebug) (op : SrvOp) :
    SameShape (srvStep ca l1 d1 op c1) (srvStep ca l2 d2 op c2) := by
  obtain ⟨hs, hc, hk⟩ := h
  cases op with
  | repeatConnected =>
    show SameShape (if c1.closed then c1 else _) (if c2.closed then c2 else _)
    rw [hc]
    by_cases h2 : c2.closed
    · rw [if_pos h2, if_pos h2]; exact ⟨hs, hc, hk⟩
    · rw [if_neg h2, if_neg h2]
      exact sameShape_emitConnected ⟨hs, hc, hk⟩ l1 l2 d1 d2
  | heartbeat =>
    show SameShape (if c1.closed then c1 else _) (if c2.closed then c2 else _)
    rw [hc]
    by_cases h2 : c2.closed
    · rw [if_pos h2, if_pos h2]; exact ⟨hs, hc, hk⟩
    · rw [if_neg h2, if_neg h2]
      refine ⟨hs, rfl, ?_⟩
      show (c1.log ++ [_]).map kindOf = (c2.log ++ [_]).map kindOf
      rw [List.map_append, List.map_append, hk]
  | tick b =>
    show SameShape (tickStep ca b c1) (tickStep ca b c2)
    unfold tickStep
    rw [hc]
    by_cases h2 : c2.closed
    · rw [if_pos h2, if_pos h2]; exact ⟨hs, hc, hk⟩
    · rw [if_neg h2, if_neg h2]
      have hs' : (emitBusiness b c1).sentBusinessEvents
          = (emitBusiness b c2).sentBusinessEvents := by
        show c1.sentBusinessEvents + 1 = c2.sentBusinessEvents + 1
        rw [hs]
      have hk' : (emitBusiness b c1).log.map kindOf = (emitBusiness b c2).log.map kindOf := by
        show (c1.log ++ [_]).map kindOf = (c2.log ++ [_]).map kindOf
        rw [List.map_append, List.map_append, hk]
        cases b <;> rfl
      have hc' : (emitBusiness b c1).closed = (emitBusiness b c2).closed := by
        show c1.closed = c2.closed
        exact hc
      show SameShape
        (if 0 < ca ∧ ca ≤ (emitBusiness b c1).sentBusinessEvents then
          { emitBusiness b c1 with closed := true } else emitBusiness b c1)
        (if 0 < ca ∧ ca ≤ (emitBusiness b c2).sentBusinessEvents then
          { emitBusiness b c2 with closed := true } else emitBusiness b c2)
      rw [hs']
      by_cases hcap : 0 < ca ∧ ca ≤ (emitBusiness b c2).sentBusinessEvents
      · rw [if_pos hcap, if_pos hcap]
        exact ⟨hs', rfl, hk'⟩
      · rw [if_neg hcap, if_neg hcap]
        exact ⟨hs', hc', hk'⟩

lemma sameShape_srvRun (ca : ℕ) (l1 l2 : ℚ) (d1 d2 : RequestDebug)
    (ops : List SrvOp) (c1 c2 : SrvConn) (h : SameShape c1 c2) :
    SameShape (srvRun ca l1 d1 ops c1) (srvRun ca l2 d2 ops c2) := by
  induction ops generalizing c1 c2 with
  | nil => exact h
  | cons op rest ih => exact ih _ _ (sameShape_srvStep h ca l1 l2 d1 d2 op)

/-- Claim C5, counterexample.  With no client resume point the parsed resume
point is 0, yet the id assigned to the first record of the connection is 1,
not 0: `writeEvent` pre-increments (`const id = ++nextId`), so the id
sequence does not start *from* the resume point — it starts from the
successor of the seed. -/
theorem first_id_is_successor_of_seed :
    parseLastEventId none none = 0 ∧
    logIds (openConn emptyRequest).log = [1] ∧ ((1 : ℚ) ≠ 0) := by
  refine ⟨rfl, ?_, by norm_num⟩
  have h : logIds (openConn emptyRequest).log = [(0 : ℚ) + 1] := rfl
  rw [h]
  norm_num

/-- Claim C5, amended.  For every connection whose client resume point `r`
(default 0) is an integer in the double-exact range — `r` a natural number
with `r` plus the number of records emitted at most `2^53`, so that each of
the program's IEEE-754 `++nextId` increments is exact and agrees with the
rational model (a seed at or beyond `2^53` makes the double increment round
away and ids repeat, so no stronger statement holds of the program) — the
ids assigned by `writeEvent` are strictly increasing and are exactly the
consecutive values `r+1, r+2, …`: the counter is seeded at `r` and the first
assigned id is `r+1`, not `r`.  The resume point is echoed unchanged in the
first `connected` record, and it is never used to skip or replay records:
the sequence of record kinds produced by a schedule is identical to that of
a connection opened with any other request (in particular one with resume
point 0). -/
theorem per_connection_id_assignment (req req0 : Request) (ops : List SrvOp)
    (ca : ℕ) (r : ℚ) (m : ℕ)
    (hr : r = parseLastEventId req.headers.lastEventId
      (queryLookup req.query "lastEventId"))
    (hm : r = (m : ℚ))
    (hbound : m + ops.length + 1 ≤ 2 ^ 53) :
    (logIds (srvRun ca r (buildRequestDebug req) ops (openConn req)).log
      = idsFrom r (logIds (srvRun ca r (buildRequestDebug req) ops
          (openConn req)).log).length) ∧
    (logIds (srvRun ca r (buildRequestDebug req) ops
        (openConn req)).log).Pairwise (· < ·) ∧
    ((srvRun ca r (buildRequestDebug req) ops (openConn req)).log.head?
      = some (.connected (r + 1) r (buildRequestDebug req))) ∧
    ((srvRun ca r (buildRequestDebug req) ops (openConn req)).log.map kindOf
      = (srvRun ca 0 (buildRequestDebug req0) ops (openConn req0)).log.map kindOf) := by
  subst hr
  have hids := idsOk_srvRun ca
    (parseLastEventId req.headers.lastEventId (queryLookup req.query "lastEventId"))
    (buildRequestDebug req) ops (idsOk_openConn req)
  refine ⟨hids.2, ?_, ?_, ?_⟩
  · rw [hids.2]
    exact pairwise_idsFrom _ _
  · obtain ⟨l', hl⟩ := srvRun_log_extends ca
      (parseLastEventId req.headers.lastEventId (queryLookup req.query "lastEventId"))
      (buildRequestDebug req) ops (openConn req)
    rw [hl]
    rfl
  · exact (sameShape_srvRun ca
      (parseLastEventId req.headers.lastEventId (queryLookup req.query "lastEventId")) 0
      (buildRequestDebug req) (buildRequestDebug req0)
      ops (openConn req) (openConn req0) ⟨rfl, rfl, rfl⟩).2.2

/-- Witness for the amended C5 on a concrete schedule: the first record of
the stream echoes the (default 0) resume point and carries id `0+1`. -/
theorem per_connection_id_assignment_witness :
    (srvRun 0 0 (buildRequestDebug emptyRequest) [SrvOp.tick true]
      (openConn emptyRequest)).log.head?
      = some (.connected ((0 : ℚ) + 1) 0 (buildRequestDebug emptyRequest)) :=
  (per_connection_id_assignment emptyRequest emptyRequest [SrvOp.tick true]
    0 0 0 rfl (by norm_num) (by norm_num)).2.2.1

lemma businessCount_append (l1 l2 : List SrvEvent) :
    businessCount (l1 ++ l2) = businessCount l1 + businessCount l2 := by
  simp [businessCount]

lemma sentEq_emitConnected (lei : ℚ) (dbg : RequestDebug) {c : SrvConn}
    (h : c.sentBusinessEvents = businessCount c.log) :
    (emitConnected lei dbg c).sentBusinessEvents
      = businessCount (emitConnected lei dbg c).log := by
  show c.sentBusinessEvents
      = businessCount (c.log ++ [SrvEvent.connected (c.nextId + 1) lei dbg])
  rw [businessCount_append, h]
  rfl

lemma sentEq_emitBusiness (b : Bool) {c : SrvConn}
    (h : c.sentBusinessEvents = businessCount c.log) :
    (emitBusiness b c).sentBusinessEvents = businessCount (emitBusiness b c).log := by
  cases b with
  | true =>
    show c.sentBusinessEvents + 1
        = businessCount (c.log ++ [SrvEvent.task (c.nextId + 1)])
    rw [businessCount_append, h]
    rfl
  | false =>
    show c.sentBusinessEvents + 1
        = businessCount (c.log ++ [SrvEvent.notification (c.nextId + 1)])
    rw [businessCount_append, h]
    rfl

lemma sentEq_srvStep (ca : ℕ) (lei : ℚ) (dbg : RequestDebug) (op : SrvOp) {c : SrvConn}
    (h : c.sentBusinessEvents = businessCount c.log) :
    (srvStep ca lei dbg op c).sentBusinessEvents
      = businessCount (srvStep ca lei dbg op c).log := by
  cases op with
  | repeatConnected =>
    show (if c.closed then c else emitConnected lei dbg c).sentBusinessEvents
        = businessCount (if c.closed then c else emitConnected lei dbg c).log
    by_cases hcl : c.closed
    · rw [if_pos hcl]; exact h
    · rw [if_neg hcl]; exact sentEq_emitConnected lei dbg h
  | heartbeat =>
    show (if c.closed then c else
        { c with log := c.log ++ [.heartbeat] }).sentBusinessEvents
      = businessCount (if c.closed then c else { c with log := c.log ++ [.heartbeat] }).log
    by_cases hcl : c.closed
    · rw [if_pos hcl]; exact h
    · rw [if_neg hcl]
      show c.sentBusinessEvents = businessCount (c.log ++ [SrvEvent.heartbeat])
      rw [businessCount_append, h]
      rfl
  | tick b =>
    show (tickStep ca b c).sentBusinessEvents = businessCount (tickStep ca b c).log
    unfold tickStep
    by_cases hcl : c.closed
    · rw [if_pos hcl]; exact h
    · rw [if_neg hcl]
      by_cases hcap : 0 < ca ∧ ca ≤ (emitBusiness b c).sentBusinessEvents
      · rw [if_pos hcap]
        show (emitBusiness b c).sentBusinessEvents
            = businessCount (emitBusiness b c).log
        exact sentEq_emitBusiness b h
      · rw [if_neg hcap]
        exact sentEq_emitBusiness b h

lemma sentEq_srvRun (ca : ℕ) (lei : ℚ) (dbg : RequestDebug) (ops : List SrvOp)
    {c : SrvConn} (h : c.sentBusinessEvents = businessCount c.log) :
    (srvRun ca lei dbg ops c).sentBusinessEvents
      = businessCount (srvRun ca lei dbg ops c).log := by
  induction ops generalizing c with
  | nil => exact h
  | cons op rest ih => exact ih (sentEq_srvStep ca lei dbg op h)

lemma sentEq_openConn (req : Request) :
    (openConn req).sentBusinessEvents = businessCount (openConn req).log := rfl

lemma ticksRun_cap (n : ℕ) (lei : ℚ) (dbg : RequestDebug) (hn : 0 < n) :
    ∀ (coins : List Bool) (c : SrvConn), c.closed = false →
      c.sentBusinessEvents < n → c.sentBusinessEvents + coins.length ≤ n →
      (srvRun n lei dbg (coins.map SrvOp.tick) c).sentBusinessEvents
          = c.sentBusinessEvents + coins.length ∧
      ((srvRun n lei dbg (coins.map SrvOp.tick) c).closed
          = decide (c.sentBusinessEvents + coins.length = n)) := by
  intro coins
  induction coins with
  | nil =>
    intro c hc hlt _
    rw [List.map_nil, srvRun_nil]
    constructor
    · simp
    · rw [hc]
      have hne : ¬(c.sentBusinessEvents + ([] : List Bool).length = n) := by
        simp only [List.length_nil, Nat.add_zero]
        omega
      rw [decide_eq_false hne]
  | cons b rest ih =>
    intro c hc hlt hle
    rw [List.map_cons, srvRun_cons]
    have hle' : c.sentBusinessEvents + (rest.length + 1) ≤ n := by
      simpa [List.length_cons] using hle
    have htick : srvStep n lei dbg (SrvOp.tick b) c
        = if 0 < n ∧ n ≤ (emitBusiness b c).sentBusinessEvents then
            { emitBusiness b c with closed := true } else emitBusiness b c := by
      show tickStep n b c = _
      unfold tickStep
      simp [hc]
    by_cases hcap : n ≤ c.sentBusinessEvents + 1
    · have hone : c.sentBusinessEvents + 1 = n := by omega
      have hlen0 : rest.length = 0 := by omega
      have hrest : rest = [] := List.eq_nil_of_length_eq_zero hlen0
      subst hrest
      rw [htick, if_pos ⟨hn, hcap⟩, List.map_nil, srvRun_nil]
      constructor
      · rfl
      · show true = decide (c.sentBusinessEvents + ([b] : List Bool).length = n)
        have hb : c.sentBusinessEvents + ([b] : List Bool).length = n := by
          simp only [List.length_cons, List.length_nil]
          omega
        rw [decide_eq_true hb]
    · have hc2 : (emitBusiness b c).closed = false := hc
      have hcap' : ¬(0 < n ∧ n ≤ (emitBusiness b c).sentBusinessEvents) := by
        intro hcontra
        exact hcap hcontra.2
      rw [htick, if_neg hcap']
      have hlt2 : (emitBusiness b c).sentBusinessEvents < n := by
        show c.sentBusinessEvents + 1 < n
        omega
      have hle2 : (emitBusiness b c).sentBusinessEvents + rest.length ≤ n := by
        show c.sentBusinessEvents + 1 + rest.length ≤ n
        omega
      obtain ⟨ihs, ihc⟩ := ih (emitBusiness b c) hc2 hlt2 hle2
      have harr : (emitBusiness b c).sentBusinessEvents + rest.length
          = c.sentBusinessEvents + (b :: rest).length := by
        show c.sentBusinessEvents + 1 + rest.length = c.sentBusinessEvents + (b :: rest).length
        simp [List.length_cons]
        omega
      constructor
      · rw [ihs, harr]
      · rw [ihc, harr]

/-- Claim C7.  For a connection with business-event cap `n > 0` and heartbeats
disabled (only event-timer firings), the server emits exactly `n` application
(task/notification) records and closes the stream in the same timer firing
that writes the `n`-th record (after `n-1` firings the stream is still open;
a tick on a closed connection — whose timers were cleared — does nothing).
`connected` records and heartbeat comments never increment the counter: for
every schedule, the business counter equals the number of application records
in the log. -/
theorem cap_enforcement (n : ℕ) (req : Request) (lei : ℚ) (dbg : RequestDebug)
    (coins shortCoins : List Bool) (hn : 0 < n)
    (hlen : coins.length = n) (hshort : shortCoins.length = n - 1) :
    businessCount (srvRun n lei dbg (coins.map SrvOp.tick) (openConn req)).log = n ∧
    (srvRun n lei dbg (coins.map SrvOp.tick) (openConn req)).closed = true ∧
    (srvRun n lei dbg (shortCoins.map SrvOp.tick) (openConn req)).closed = false ∧
    (∀ (b : Bool) (c : SrvConn), c.closed = true → tickStep n b c = c) ∧
    (∀ (ops : List SrvOp),
      (srvRun n lei dbg ops (openConn req)).sentBusinessEvents
        = businessCount (srvRun n lei dbg ops (openConn req)).log) := by
  have hopen_closed : (openConn req).closed = false := rfl
  have hopen_sent : (openConn req).sentBusinessEvents = 0 := rfl
  have hmain := ticksRun_cap n lei dbg hn coins (openConn req) hopen_closed
    (by rw [hopen_sent]; omega) (by rw [hopen_sent, hlen]; omega)
  have hshortrun := ticksRun_cap n lei dbg hn shortCoins (openConn req) hopen_closed
    (by rw [hopen_sent]; omega) (by rw [hopen_sent, hshort]; omega)
  have hsentEq : ∀ (ops : List SrvOp),
      (srvRun n lei dbg ops (openConn req)).sentBusinessEvents
        = businessCount (srvRun n lei dbg ops (openConn req)).log :=
    fun ops => sentEq_srvRun n lei dbg ops (sentEq_openConn req)
  refine ⟨?_, ?_, ?_, ?_, hsentEq⟩
  · rw [← hsentEq (coins.map SrvOp.tick), hmain.1, hopen_sent, hlen]
    omega
  · rw [hmain.2, hopen_sent, hlen]
    simp
  · rw [hshortrun.2, hopen_sent, hshort]
    have hne : ¬(0 + (n - 1) = n) := by omega
    rw [decide_eq_false hne]
  · intro b c hcl
    unfold tickStep
    simp [hcl]

/-- Witness for C7: cap 5, heartbeats disabled — five timer firings emit
exactly five application records and close the stream; four leave it open. -/
theorem cap_enforcement_witness :
    businessCount (srvRun 5 0 (buildRequestDebug emptyRequest)
      ([true, false, true, true, false].map SrvOp.tick) (openConn emptyRequest)).log = 5 ∧
    (srvRun 5 0 (buildRequestDebug emptyRequest)
      ([true, false, true, true, false].map SrvOp.tick) (openConn emptyRequest)).closed
        = true ∧
    (srvRun 5 0 (buildRequestDebug emptyRequest)
      ([true, false, true, false].map SrvOp.tick) (openConn emptyRequest)).closed
        = false := by
  have h := cap_enforcement 5 emptyRequest 0 (buildRequestDebug emptyRequest)
    [true, false, true, true, false] [true, false, true, false]
    (by norm_num) rfl rfl
  exact ⟨h.1, h.2.1, h.2.2.1⟩

lemma taskHandler_bad {d : Option TaskMsg} (hd : badTask d = true)
    (s : TasksWidgetState) (ra : ℕ) :
    taskHandler s ra d = { s with errorCount := s.errorCount + 1 } := by
  cases d with
  | none => rfl
  | some m =>
    have hne : m.type ≠ "task" := by
      simpa [badTask] using hd
    show (if m.type ≠ "task" then _ else _) = _
    rw [if_pos hne]

lemma taskHandler_errorBump (s : TasksWidgetState) (ra : ℕ) (d : Option TaskMsg) :
    taskHandler { s with errorCount := s.errorCount + 1 } ra d
      = { taskHandler s ra d with errorCount := (taskHandler s ra d).errorCount + 1 } := by
  cases d with
  | none => rfl
  | some m =>
    by_cases hne : m.type ≠ "task" <;> simp [taskHandler, hne]

lemma processTaskEvents_errorBump (l : List (ℕ × Option TaskMsg)) (s : TasksWidgetState) :
    processTaskEvents { s with errorCount := s.errorCount + 1 } l
      = { processTaskEvents s l with
          errorCount := (processTaskEvents s l).errorCount + 1 } := by
  induction l generalizing s with
  | nil => rfl
  | cons e rest ih =>
    show processTaskEvents (taskHandler { s with errorCount := s.errorCount + 1 } e.1 e.2) rest
        = _
    rw [taskHandler_errorBump]
    exact ih (taskHandler s e.1 e.2)

/-- Claim C8.  A record whose payload fails to parse (malformed JSON) or whose
`type` field does not match the subscribed kind makes the widget's handler
increment its error counter and return (the handler is a total function —
`safeJsonParse` catches, nothing propagates); all records before and after it
are processed exactly as if the bad record were absent: the resulting state
differs only in the error counter, by exactly 1. -/
theorem malformed_record_resilience (xs ys : List (ℕ × Option TaskMsg)) (ra : ℕ)
    (bad : Option TaskMsg) (hbad : badTask bad = true) (s : TasksWidgetState) :
    processTaskEvents s (xs ++ (ra, bad) :: ys)
      = { processTaskEvents s (xs ++ ys) with
          errorCount := (processTaskEvents s (xs ++ ys)).errorCount + 1 } := by
  induction xs generalizing s with
  | nil =>
    show processTaskEvents (taskHandler s ra bad) ys = _
    rw [taskHandler_bad hbad]
    exact processTaskEvents_errorBump ys s
  | cons x rest ih =>
    show processTaskEvents (taskHandler s x.1 x.2) (rest ++ (ra, bad) :: ys) = _
    exact ih (taskHandler s x.1 x.2)

/-- Witness for C8: one malformed record (parse failure) between two valid
task records bumps only the error counter. -/
theorem malformed_record_resilience_witness :
    badTask none = true ∧
    processTaskEvents widgetInit ([(1, some goodMsg)] ++ (2, none) :: [(3, some goodMsg)])
      = { processTaskEvents widgetInit ([(1, some goodMsg)] ++ [(3, some goodMsg)]) with
          errorCount := (processTaskEvents widgetInit
            ([(1, some goodMsg)] ++ [(3, some goodMsg)])).errorCount + 1 } :=
  ⟨rfl, malformed_record_resilience [(1, some goodMsg)] [(3, some goodMsg)] 2 none rfl
    widgetInit⟩

end SSE
